import Mathlib

/-!
Verification of the shared request-dispatch core of the TikTok Business API
Go SDK: configuration validation (config.go), client construction
(`NewClient`), the rate-limited retrying request executor
(`Client.DoRequest` / `Client.shouldRetry`), response parsing
(`Client.ParseResponse`), and the API-error taxonomy
(pkg/models/errors.go).

The Go code is shallowly embedded: machine integers (`int`, `int64`,
`time.Duration`) become `Int` with explicit two's-complement wrapping where
overflow matters; `float64` configuration fields become `Rat` (only their
sign is ever inspected); external effects (the rate limiter's `Wait`, the
transport's `Do`, `json.Unmarshal`) are parameterised as oracles describing
one concrete execution, and the executor is a pure function of those
oracles.
-/

namespace TikTokSDK

/-! ## Configuration (go_sdk/pkg/client config.go) -/

/-- Go `BackoffStrategy` (`LinearBackoff`, `ExponentialBackoff`,
`FixedBackoff`). -/
inductive BackoffStrategy where
  | linear : BackoffStrategy
  | exponential : BackoffStrategy
  | fixed : BackoffStrategy
deriving DecidableEq

/-- Go `RetryConfig`.  `MaxRetries` is an `int`; the delays are
`time.Duration` (int64 nanoseconds), modelled as `Int`; `Multiplier` is a
`float64`, modelled as `Rat` (validation only tests its sign). -/
structure RetryConfig where
  maxRetries : Int
  backoffStrategy : BackoffStrategy
  initialDelay : Int
  maxDelay : Int
  multiplier : Rat
  retryableStatusCodes : List Int
deriving DecidableEq

/-- Go `RateLimitConfig`: `RequestsPerSecond float64`, `BurstSize int`. -/
structure RateLimitConfig where
  requestsPerSecond : Rat
  burstSize : Int
deriving DecidableEq

/-- Go `Config`.  `Timeout` is a `time.Duration` (int64 of nanoseconds),
modelled as `Int`; the two policy structs are pointers, modelled as
`Option`. -/
structure Config where
  baseURL : String
  accessToken : String
  clientID : String
  clientSecret : String
  timeout : Int
  retryConfig : Option RetryConfig
  rateLimit : Option RateLimitConfig
  userAgent : String
  debug : Bool
deriving DecidableEq

/-- One second in `time.Duration` units (nanoseconds), Go `time.Second`. -/
def timeSecond : Int := 1000000000

/-- Go `DefaultConfig()`. -/
def DefaultConfig : Config :=
  { baseURL := "https://business-api.tiktok.com"
    accessToken := ""
    clientID := ""
    clientSecret := ""
    timeout := 30 * timeSecond
    retryConfig := some
      { maxRetries := 3
        backoffStrategy := .exponential
        initialDelay := 1 * timeSecond
        maxDelay := 30 * timeSecond
        multiplier := 2
        retryableStatusCodes := [429, 500, 502, 503, 504] }
    rateLimit := some { requestsPerSecond := 10, burstSize := 20 }
    userAgent := "tiktok-business-api-go-sdk/1.0.0"
    debug := false }

/-- Go `ErrInvalidConfig{Field, Message string}`. -/
structure ErrInvalidConfig where
  field : String
  message : String
deriving DecidableEq

/-- The `if c.RateLimit != nil { ... }` block at the end of
`Config.Validate`. -/
def Config.validateRateLimit (c : Config) : Option ErrInvalidConfig :=
  match c.rateLimit with
  | some rl =>
    if rl.requestsPerSecond ≤ 0 then
      some ⟨"RateLimit.RequestsPerSecond", "requests per second must be positive"⟩
    else if rl.burstSize ≤ 0 then
      some ⟨"RateLimit.BurstSize", "burst size must be positive"⟩
    else none
  | none => none

/-- Go `Config.Validate`: the checks in source order; `some e` models
`return e`, `none` models `return nil`. -/
def Config.Validate (c : Config) : Option ErrInvalidConfig :=
  if c.baseURL = "" then
    some ⟨"BaseURL", "base URL is required"⟩
  else if c.accessToken = "" ∧ (c.clientID = "" ∨ c.clientSecret = "") then
    some ⟨"Authentication", "either access token or client credentials are required"⟩
  else if c.timeout ≤ 0 then
    some ⟨"Timeout", "timeout must be positive"⟩
  else
    match c.retryConfig with
    | some rc =>
      if rc.maxRetries < 0 then
        some ⟨"RetryConfig.MaxRetries", "max retries cannot be negative"⟩
      else if rc.initialDelay ≤ 0 then
        some ⟨"RetryConfig.InitialDelay", "initial delay must be positive"⟩
      else if rc.maxDelay ≤ 0 then
        some ⟨"RetryConfig.MaxDelay", "max delay must be positive"⟩
      else if rc.multiplier ≤ 0 then
        some ⟨"RetryConfig.Multiplier", "multiplier must be positive"⟩
      else c.validateRateLimit
    | none => c.validateRateLimit

/-! ## API error taxonomy (go_sdk/pkg/models/errors.go) -/

/-- Go `models.APIError` (the `Data interface{}` payload carries no
information used by any classifier and is omitted). -/
structure APIError where
  code : String
  message : String
  requestID : String
  httpStatusCode : Int
deriving DecidableEq

/-- Go `APIError.IsRetryable`: first switch on `HTTPStatusCode`
(429/500/502/503/504), then switch on `Code`. -/
def APIError.IsRetryable (e : APIError) : Bool :=
  if e.httpStatusCode == 429 || e.httpStatusCode == 500 ||
      e.httpStatusCode == 502 || e.httpStatusCode == 503 ||
      e.httpStatusCode == 504 then
    true
  else if e.code == "RATE_LIMIT_EXCEEDED" || e.code == "INTERNAL_ERROR" ||
      e.code == "SERVICE_UNAVAILABLE" || e.code == "TIMEOUT" then
    true
  else
    false

/-- Go `APIError.IsAuthenticationError`: 401/403 or credential codes. -/
def APIError.IsAuthenticationError (e : APIError) : Bool :=
  if e.httpStatusCode == 401 || e.httpStatusCode == 403 then
    true
  else if e.code == "UNAUTHORIZED" || e.code == "FORBIDDEN" ||
      e.code == "INVALID_ACCESS_TOKEN" || e.code == "ACCESS_TOKEN_EXPIRED" ||
      e.code == "INSUFFICIENT_PERMISSIONS" then
    true
  else
    false

/-- Go `APIError.IsValidationError`: 400 or parameter codes. -/
def APIError.IsValidationError (e : APIError) : Bool :=
  if e.httpStatusCode == 400 then
    true
  else if e.code == "INVALID_PARAMETER" || e.code == "MISSING_PARAMETER" ||
      e.code == "PARAMETER_VALUE_NOT_SUPPORTED" || e.code == "VALIDATION_ERROR" then
    true
  else
    false

/-- Go `APIError.IsRateLimitError`:
`e.HTTPStatusCode == 429 || e.Code == "RATE_LIMIT_EXCEEDED"`. -/
def APIError.IsRateLimitError (e : APIError) : Bool :=
  e.httpStatusCode == 429 || e.code == "RATE_LIMIT_EXCEEDED"

/-! ## Client construction (client.go `NewClient`, `SetTimeout`) -/

/-- Two's-complement wrap of an integer into the `int64` range, as Go
arithmetic on `time.Duration` silently does on overflow. -/
def int64Wrap (x : Int) : Int := (x + 2 ^ 63) % 2 ^ 64 - 2 ^ 63

/-- The state `NewClient` builds: the retained configuration, the
`http.Client.Timeout` it installed (nanoseconds), and the rate limiter it
created (`nil` when no rate-limit policy is configured). -/
structure ClientState where
  config : Config
  httpClientTimeout : Int
  rateLimiter : Option RateLimitConfig
deriving DecidableEq

/-- The two failure exits of `NewClient`: `"invalid config: %w"` and
`"invalid base URL: %w"`. -/
inductive NewClientError where
  | invalidConfig : ErrInvalidConfig → NewClientError
  | invalidBaseURL : NewClientError
deriving DecidableEq

/-- Go `NewClient(config *Config)`.  A `nil` pointer argument is `none`;
the outcome of the external `url.Parse(config.BaseURL)` is the oracle
`baseURLParseFails`.  The HTTP client timeout is set to
`time.Duration(config.Timeout) * time.Second`, i.e. the (already
nanosecond-valued) duration multiplied again by `10^9`, with int64
wrap-around, exactly as the Go expression computes. -/
def NewClient (config? : Option Config) (baseURLParseFails : Bool) :
    Except NewClientError ClientState :=
  let config := config?.getD DefaultConfig
  match config.Validate with
  | some e => .error (.invalidConfig e)
  | none =>
    if baseURLParseFails then
      .error .invalidBaseURL
    else
      .ok { config := config
            httpClientTimeout := int64Wrap (config.timeout * timeSecond)
            rateLimiter := config.rateLimit }

/-- Go `Client.SetTimeout`: sets both `config.Timeout` and
`httpClient.Timeout` to the same duration. -/
def ClientState.SetTimeout (c : ClientState) (timeout : Int) : ClientState :=
  { c with config := { c.config with timeout := timeout }
           httpClientTimeout := timeout }

/-! ## Request executor (client.go `Client.DoRequest`, `Client.shouldRetry`)

One concrete execution of a logical call is described by oracles: the
rate limiter's `Wait` outcome, the outcome of `http.NewRequestWithContext`,
and per-attempt transport outcomes for `httpClient.Do`.  The embedding
additionally keeps an audit trail the Go runtime has implicitly: how many
rate-limiter tokens were consumed, how many physical sends happened, how
many retried response bodies the loop closed, and which request-body
content each physical send transmitted (the request object is created once
before the loop, and its body reader is consumed by a send and never
reset). -/

/-- An opaque Go `error` value as seen by `DoRequest`: a context
cancellation / deadline error, some other transport failure (tagged to
keep distinct failures distinct), or the synthetic
`fmt.Errorf("HTTP %d: %s", ...)` the retry loop records for a retryable
status. -/
inductive GoError where
  | ctxCanceled : GoError
  | transport : Nat → GoError
  | httpStatus : Int → GoError
deriving DecidableEq

/-- Outcome of `c.rateLimiter.Wait(ctx)` on a non-nil limiter: admission
(consuming one token) or an error (context cancelled / deadline; no token
is consumed). -/
inductive AcquireOutcome where
  | admitted : AcquireOutcome
  | canceled : GoError → AcquireOutcome
deriving DecidableEq

/-- Outcome of one `c.httpClient.Do(req)`: an error, or a response with
the given status code. -/
inductive SendOutcome where
  | err : GoError → SendOutcome
  | resp : Int → SendOutcome
deriving DecidableEq

/-- The value `DoRequest` returns, by exit path:
`rateLimitError` is `"rate limit error: %w"`, `newRequestError` is
`"failed to create request: %w"`, `response s k` is the `*http.Response`
with status `s` returned from attempt index `k`, and `exhausted n last` is
`"request failed after n attempts: %w(last)"` with `n = maxRetries+1`. -/
inductive DoResult where
  | rateLimitError : GoError → DoResult
  | newRequestError : GoError → DoResult
  | response : Int → Nat → DoResult
  | exhausted : Int → Option GoError → DoResult
deriving DecidableEq

/-- What one run of the retry loop produced: the returned value, the
number of physical sends performed, the number of response bodies the loop
closed before retrying, and the body content transmitted by each physical
send in order. -/
structure LoopOut where
  result : DoResult
  attemptsMade : Nat
  bodiesClosed : Nat
  sentBodies : List String
deriving DecidableEq

/-- Go `Client.shouldRetry(statusCode)`: the default retryable set
`{429, 500, 502, 503, 504}` is overridden exactly when a retry policy is
configured with a non-empty `RetryableStatusCodes` list. -/
def Client.shouldRetry (cfg : Config) (statusCode : Int) : Bool :=
  let retryableCodes :=
    match cfg.retryConfig with
    | some rc =>
      if rc.retryableStatusCodes.length > 0 then rc.retryableStatusCodes
      else [429, 500, 502, 503, 504]
    | none => [429, 500, 502, 503, 504]
  retryableCodes.contains statusCode

/-- The retry loop of `DoRequest`
(`for attempt := 0; attempt <= maxRetries; attempt++`).  `remainingBody`
is what is left of the request body reader entering this attempt: a
physical send transmits it and leaves the reader drained (the Go code
reuses the same `*http.Request` and never resets `req.Body`, so every
iteration after a send enters with an empty reader).  `lastErr` mirrors
the Go `lastErr` variable. -/
def doRequestLoop (cfg : Config) (send : Nat → SendOutcome) (maxRetries : Int)
    (attempt : Nat) (remainingBody : String) (lastErr : Option GoError) : LoopOut :=
  if _h : (attempt : Int) ≤ maxRetries then
    match send attempt with
    | .err e =>
      let rest := doRequestLoop cfg send maxRetries (attempt + 1) "" (some e)
      { rest with
          attemptsMade := rest.attemptsMade + 1
          sentBodies := remainingBody :: rest.sentBodies }
    | .resp status =>
      if Client.shouldRetry cfg status ∧ (attempt : Int) < maxRetries then
        let rest := doRequestLoop cfg send maxRetries (attempt + 1) ""
          (some (.httpStatus status))
        { rest with
            attemptsMade := rest.attemptsMade + 1
            bodiesClosed := rest.bodiesClosed + 1
            sentBodies := remainingBody :: rest.sentBodies }
      else
        { result := .response status attempt
          attemptsMade := 1
          bodiesClosed := 0
          sentBodies := [remainingBody] }
  else
    { result := .exhausted (maxRetries + 1) lastErr
      attemptsMade := 0
      bodiesClosed := 0
      sentBodies := [] }
termination_by (maxRetries + 1 - (attempt : Int)).toNat
decreasing_by all_goals omega

/-- The full observable outcome of one `DoRequest` call. -/
structure DoOutput where
  result : DoResult
  tokensConsumed : Nat
  physicalAttempts : Nat
  bodiesClosedInLoop : Nat
  sentBodies : List String
deriving DecidableEq

/-- The local `maxRetries` variable of `DoRequest`: 3 unless a retry
policy is configured. -/
def Client.maxRetriesOf (cfg : Config) : Int :=
  match cfg.retryConfig with
  | some rc => rc.maxRetries
  | none => 3

/-- The part of `DoRequest` after the rate-limiter gate: request creation
(`newReqErr` is the oracle for `http.NewRequestWithContext`; URL
resolution and header assembly are effect-free and contribute nothing to
the modelled outcome), the `maxRetries` default of 3 when no retry policy
is configured, and the retry loop. -/
def Client.doRequestAfterGate (cfg : Config) (tokens : Nat)
    (newReqErr : Option GoError) (body : String) (send : Nat → SendOutcome) :
    DoOutput :=
  match newReqErr with
  | some e =>
    { result := .newRequestError e
      tokensConsumed := tokens
      physicalAttempts := 0
      bodiesClosedInLoop := 0
      sentBodies := [] }
  | none =>
    let out := doRequestLoop cfg send (Client.maxRetriesOf cfg) 0 body none
    { result := out.result
      tokensConsumed := tokens
      physicalAttempts := out.attemptsMade
      bodiesClosedInLoop := out.bodiesClosed
      sentBodies := out.sentBodies }

/-- Go `Client.DoRequest`: the rate-limiter gate runs first and only once
(`c.rateLimiter` is non-nil exactly when `config.RateLimit` is), and on a
`Wait` failure the whole call aborts as `"rate limit error: %w"` with no
physical attempt; otherwise one token has been consumed and control
reaches the request build and retry loop. -/
def Client.DoRequest (cfg : Config) (acquire : AcquireOutcome)
    (newReqErr : Option GoError) (body : String) (send : Nat → SendOutcome) :
    DoOutput :=
  if cfg.rateLimit.isSome then
    match acquire with
    | .canceled e =>
      { result := .rateLimitError e
        tokensConsumed := 0
        physicalAttempts := 0
        bodiesClosedInLoop := 0
        sentBodies := [] }
    | .admitted => Client.doRequestAfterGate cfg 1 newReqErr body send
  else
    Client.doRequestAfterGate cfg 0 newReqErr body send

/-! ## Response parsing (client.go `Client.ParseResponse`) -/

/-- The response body as `ParseResponse` can observe it, with the
outcomes of the external calls as oracles: whether `io.ReadAll` fails,
the text read on success, the result of `json.Unmarshal(body, &apiErr)`
(`some a` when Go returns a nil error, leaving `a` in `apiErr`), and
whether `json.Unmarshal(body, v)` into the caller target succeeds. -/
structure HTTPBody where
  readFails : Bool
  content : String
  apiErrDecode : Option APIError
  targetDecodeOk : Bool
deriving DecidableEq

/-- The value `ParseResponse` returns: `nil` after a successful decode
into the target, the decoded `*models.APIError`, the generic
`"HTTP %d: %s"` error carrying status and raw body text, the
`"failed to read response body: %w"` error, or the
`"failed to parse response: %w"` decode error. -/
inductive ParseResult where
  | ok : ParseResult
  | apiError : APIError → ParseResult
  | genericHTTPError : Int → String → ParseResult
  | readError : ParseResult
  | parseError : ParseResult
deriving DecidableEq

/-- Result of `ParseResponse` plus how many times the response body was
closed during the call (`defer resp.Body.Close()` fires exactly once, on
every exit path). -/
structure ParseOutput where
  result : ParseResult
  bodyCloses : Nat
deriving DecidableEq

/-- Go `Client.ParseResponse(resp, v)`: read the body, on status ≥ 400 try
to decode an `APIError` and return it when the decode succeeded with a
non-empty `Code`, otherwise the generic status error; on success statuses
decode into the target.  Every branch returns through the single deferred
`resp.Body.Close()`. -/
def Client.ParseResponse (status : Int) (body : HTTPBody) : ParseOutput :=
  if body.readFails then
    { result := .readError, bodyCloses := 1 }
  else if 400 ≤ status then
    match body.apiErrDecode with
    | some apiErr =>
      if apiErr.code ≠ "" then
        { result := .apiError apiErr, bodyCloses := 1 }
      else
        { result := .genericHTTPError status body.content, bodyCloses := 1 }
    | none => { result := .genericHTTPError status body.content, bodyCloses := 1 }
  else if body.targetDecodeOk then
    { result := .ok, bodyCloses := 1 }
  else
    { result := .parseError, bodyCloses := 1 }

/-! ## Concrete execution fixtures used to instantiate the theorems -/

/-- A retry policy with `MaxRetries = n` and an empty
`RetryableStatusCodes` list, so the default retryable set applies. -/
def sampleRetryConfig (n : Int) : RetryConfig :=
  { maxRetries := n
    backoffStrategy := .exponential
    initialDelay := timeSecond
    maxDelay := 30 * timeSecond
    multiplier := 2
    retryableStatusCodes := [] }

/-- A valid configuration with retry policy `sampleRetryConfig n` and a
rate-limit policy of 10 requests/second with burst 20. -/
def sampleConfig (n : Int) : Config :=
  { baseURL := "https://business-api.tiktok.com"
    accessToken := "token"
    clientID := ""
    clientSecret := ""
    timeout := 5 * timeSecond
    retryConfig := some (sampleRetryConfig n)
    rateLimit := some { requestsPerSecond := 10, burstSize := 20 }
    userAgent := "tiktok-business-api-go-sdk/1.0.0"
    debug := false }

/-- A transport that fails every attempt with a distinct connection
error. -/
def sendAlwaysTransportErr : Nat → SendOutcome := fun k => .err (.transport k)

/-- A transport whose every `Do` returns the context-cancellation error
(the caller's context was cancelled during the first send and stays
cancelled). -/
def sendAlwaysCanceled : Nat → SendOutcome := fun _ => .err .ctxCanceled

/-- A transport that answers every attempt with status `s`. -/
def sendResp (s : Int) : Nat → SendOutcome := fun _ => .resp s

/-- A valid configuration with no retry and no rate-limit policy and the
default 30-second timeout, for exercising `NewClient`. -/
def cfgTimeout : Config :=
  { baseURL := "https://business-api.tiktok.com"
    accessToken := "token"
    clientID := ""
    clientSecret := ""
    timeout := 30 * timeSecond
    retryConfig := none
    rateLimit := none
    userAgent := "ua"
    debug := false }

/-- An API error body with the rate-limit code on a non-429 status. -/
def apiErrRateLimit : APIError :=
  { code := "RATE_LIMIT_EXCEEDED", message := "m", requestID := "r", httpStatusCode := 200 }

/-- An API error body with the invalid-parameter code. -/
def apiErrInvalidParam : APIError :=
  { code := "INVALID_PARAMETER", message := "m", requestID := "r", httpStatusCode := 200 }

/-! ## General lemmas about the retry loop -/

/-- When every physical send from `attempt` on fails, the loop runs all
remaining iterations, returns the exhaustion error carrying
`maxRetries + 1` and the failure of the final attempt, and transmits the
remaining request body only on its first send. -/
theorem doRequestLoop_allFail (cfg : Config) (send : Nat → SendOutcome)
    (maxRetries : Int) (e : Nat → GoError) :
    ∀ (attempt : Nat) (r : String) (lastErr : Option GoError),
      (attempt : Int) ≤ maxRetries →
      (∀ k, attempt ≤ k → send k = .err (e k)) →
      doRequestLoop cfg send maxRetries attempt r lastErr =
        { result := .exhausted (maxRetries + 1) (some (e maxRetries.toNat))
          attemptsMade := (maxRetries + 1 - (attempt : Int)).toNat
          bodiesClosed := 0
          sentBodies := r :: List.replicate (maxRetries - (attempt : Int)).toNat "" } := by
  have key : ∀ (n : Nat) (attempt : Nat) (r : String) (lastErr : Option GoError),
      (maxRetries + 1 - (attempt : Int)).toNat = n →
      (attempt : Int) ≤ maxRetries →
      (∀ k, attempt ≤ k → send k = .err (e k)) →
      doRequestLoop cfg send maxRetries attempt r lastErr =
        { result := .exhausted (maxRetries + 1) (some (e maxRetries.toNat))
          attemptsMade := (maxRetries + 1 - (attempt : Int)).toNat
          bodiesClosed := 0
          sentBodies := r :: List.replicate (maxRetries - (attempt : Int)).toNat "" } := by
    intro n
    induction n with
    | zero => intro attempt r lastErr hn hle _; omega
    | succ m ih =>
      intro attempt r lastErr hn hle hsend
      rw [doRequestLoop, dif_pos hle]
      simp only [hsend attempt (Nat.le_refl _)]
      by_cases h2 : ((attempt : Int) + 1) ≤ maxRetries
      · have hcast : (((attempt + 1 : Nat)) : Int) = (attempt : Int) + 1 := by push_cast; ring
        rw [ih (attempt + 1) "" (some (e attempt)) (by rw [hcast]; omega)
          (by rw [hcast]; omega) (fun k hk => hsend k (by omega))]
        have h3 : (maxRetries + 1 - ((attempt + 1 : Nat) : Int)).toNat + 1 =
            (maxRetries + 1 - (attempt : Int)).toNat := by rw [hcast]; omega
        have h4 : (maxRetries - (attempt : Int)).toNat =
            (maxRetries - ((attempt + 1 : Nat) : Int)).toNat + 1 := by rw [hcast]; omega
        rw [← h3, h4, List.replicate_succ]
      · have heq : (attempt : Int) = maxRetries := by omega
        rw [doRequestLoop, dif_neg (by push_cast; omega)]
        have h5 : maxRetries.toNat = attempt := by omega
        have h6 : (maxRetries + 1 - (attempt : Int)).toNat = 1 := by omega
        have h7 : (maxRetries - (attempt : Int)).toNat = 0 := by omega
        rw [h5, h6, h7, List.replicate_zero]
  intro attempt r lastErr hle hsend
  exact key _ attempt r lastErr rfl hle hsend

/-- The loop performs exactly one physical send per recorded transmitted
body. -/
theorem doRequestLoop_length (cfg : Config) (send : Nat → SendOutcome)
    (maxRetries : Int) :
    ∀ (attempt : Nat) (r : String) (lastErr : Option GoError),
      (doRequestLoop cfg send maxRetries attempt r lastErr).attemptsMade =
        (doRequestLoop cfg send maxRetries attempt r lastErr).sentBodies.length := by
  have key : ∀ (n : Nat) (attempt : Nat) (r : String) (lastErr : Option GoError),
      (maxRetries + 1 - (attempt : Int)).toNat = n →
      (doRequestLoop cfg send maxRetries attempt r lastErr).attemptsMade =
        (doRequestLoop cfg send maxRetries attempt r lastErr).sentBodies.length := by
    intro n
    induction n with
    | zero =>
      intro attempt r lastErr hn
      rw [doRequestLoop, dif_neg (by omega)]
      rfl
    | succ m ih =>
      intro attempt r lastErr hn
      by_cases hle : (attempt : Int) ≤ maxRetries
      · have hm : (maxRetries + 1 - ((attempt + 1 : Nat) : Int)).toNat = m := by
          push_cast; omega
        cases hs : send attempt with
        | err e =>
          rw [doRequestLoop, dif_pos hle]
          simp only [hs, List.length_cons, ih (attempt + 1) "" (some e) hm]
        | resp status =>
          rw [doRequestLoop, dif_pos hle]
          simp only [hs]
          by_cases hr : Client.shouldRetry cfg status ∧ (attempt : Int) < maxRetries
          · rw [if_pos hr]
            simp only [List.length_cons,
              ih (attempt + 1) "" (some (.httpStatus status)) hm]
          · rw [if_neg hr]
            rfl
      · rw [doRequestLoop, dif_neg hle]
        rfl
  intro attempt r lastErr
  exact key _ attempt r lastErr rfl

/-- A loop entered with a drained request-body reader transmits only
empty bodies. -/
theorem doRequestLoop_blankTail (cfg : Config) (send : Nat → SendOutcome)
    (maxRetries : Int) :
    ∀ (attempt : Nat) (lastErr : Option GoError),
      ∀ x ∈ (doRequestLoop cfg send maxRetries attempt "" lastErr).sentBodies,
        x = "" := by
  have key : ∀ (n : Nat) (attempt : Nat) (lastErr : Option GoError),
      (maxRetries + 1 - (attempt : Int)).toNat = n →
      ∀ x ∈ (doRequestLoop cfg send maxRetries attempt "" lastErr).sentBodies,
        x = "" := by
    intro n
    induction n with
    | zero =>
      intro attempt lastErr hn
      rw [doRequestLoop, dif_neg (by omega)]
      intro x hx
      simp at hx
    | succ m ih =>
      intro attempt lastErr hn
      by_cases hle : (attempt : Int) ≤ maxRetries
      · have hm : (maxRetries + 1 - ((attempt + 1 : Nat) : Int)).toNat = m := by
          push_cast; omega
        cases hs : send attempt with
        | err e =>
          rw [doRequestLoop, dif_pos hle]
          simp only [hs]
          intro x hx
          rcases List.mem_cons.mp hx with h1 | h1
          · exact h1
          · exact ih (attempt + 1) (some e) hm x h1
        | resp status =>
          rw [doRequestLoop, dif_pos hle]
          simp only [hs]
          by_cases hr : Client.shouldRetry cfg status ∧ (attempt : Int) < maxRetries
          · rw [if_pos hr]
            intro x hx
            rcases List.mem_cons.mp hx with h1 | h1
            · exact h1
            · exact ih (attempt + 1) (some (.httpStatus status)) hm x h1
          · rw [if_neg hr]
            intro x hx
            rcases List.mem_cons.mp hx with h1 | h1
            · exact h1
            · simp at h1
      · rw [doRequestLoop, dif_neg hle]
        intro x hx
        simp at hx
  intro attempt lastErr
  exact key _ attempt lastErr rfl

/-- An executed loop transmits the incoming reader content on its first
send and only empty readers afterwards. -/
theorem doRequestLoop_headBody (cfg : Config) (send : Nat → SendOutcome)
    (maxRetries : Int) (attempt : Nat) (r : String) (lastErr : Option GoError)
    (hle : (attempt : Int) ≤ maxRetries) :
    ∃ rest, (doRequestLoop cfg send maxRetries attempt r lastErr).sentBodies =
        r :: rest ∧ ∀ x ∈ rest, x = "" := by
  cases hs : send attempt with
  | err e =>
    rw [doRequestLoop, dif_pos hle]
    simp only [hs]
    exact ⟨_, rfl, doRequestLoop_blankTail cfg send maxRetries (attempt + 1) (some e)⟩
  | resp status =>
    rw [doRequestLoop, dif_pos hle]
    simp only [hs]
    by_cases hr : Client.shouldRetry cfg status ∧ (attempt : Int) < maxRetries
    · rw [if_pos hr]
      exact ⟨_, rfl,
        doRequestLoop_blankTail cfg send maxRetries (attempt + 1) (some (.httpStatus status))⟩
    · rw [if_neg hr]
      exact ⟨[], rfl, by intro x hx; simp at hx⟩

/-- One loop iteration that received a response: with a retryable status
and attempts remaining the body is closed, a synthetic status error is
recorded and the loop continues; otherwise the response is returned
as-is. -/
theorem doRequestLoop_respStep (cfg : Config) (send : Nat → SendOutcome)
    (maxRetries : Int) (attempt : Nat) (r : String) (lastErr : Option GoError)
    (s : Int) (hle : (attempt : Int) ≤ maxRetries) (hsend : send attempt = .resp s) :
    (Client.shouldRetry cfg s = true → (attempt : Int) < maxRetries →
      doRequestLoop cfg send maxRetries attempt r lastErr =
        { result := (doRequestLoop cfg send maxRetries (attempt + 1) ""
              (some (.httpStatus s))).result
          attemptsMade := (doRequestLoop cfg send maxRetries (attempt + 1) ""
              (some (.httpStatus s))).attemptsMade + 1
          bodiesClosed := (doRequestLoop cfg send maxRetries (attempt + 1) ""
              (some (.httpStatus s))).bodiesClosed + 1
          sentBodies := r :: (doRequestLoop cfg send maxRetries (attempt + 1) ""
              (some (.httpStatus s))).sentBodies }) ∧
    (Client.shouldRetry cfg s = false ∨ ¬ (attempt : Int) < maxRetries →
      doRequestLoop cfg send maxRetries attempt r lastErr =
        { result := .response s attempt
          attemptsMade := 1
          bodiesClosed := 0
          sentBodies := [r] }) := by
  constructor
  · intro h1 h2
    rw [doRequestLoop, dif_pos hle]
    simp only [hsend]
    rw [if_pos ⟨h1, h2⟩]
  · intro h1
    rw [doRequestLoop, dif_pos hle]
    simp only [hsend]
    rw [if_neg (by rcases h1 with h1 | h1 <;> simp [h1])]

/-- When admission succeeds, request creation succeeds and the transport
fails on every attempt, the call performs `maxRetries + 1` physical sends
and returns the exhaustion error stating that count and wrapping the
final attempt's failure. -/
theorem doRequest_admitted_allFail (cfg : Config) (rc : RetryConfig)
    (e : Nat → GoError) (body : String) (send : Nat → SendOutcome)
    (hrc : cfg.retryConfig = some rc) (hN : 0 ≤ rc.maxRetries)
    (hsend : ∀ k, send k = .err (e k)) :
    ((Client.DoRequest cfg .admitted none body send).physicalAttempts : Int) =
        rc.maxRetries + 1 ∧
    (Client.DoRequest cfg .admitted none body send).result =
        .exhausted (rc.maxRetries + 1) (some (e rc.maxRetries.toNat)) := by
  have hmax : Client.maxRetriesOf cfg = rc.maxRetries := by
    simp [Client.maxRetriesOf, hrc]
  have hloop := doRequestLoop_allFail cfg send (Client.maxRetriesOf cfg) e 0 body none
      (by rw [hmax]; exact_mod_cast hN) (fun k _ => hsend k)
  have hgate : Client.DoRequest cfg .admitted none body send =
      Client.doRequestAfterGate cfg (if cfg.rateLimit.isSome then 1 else 0) none body send := by
    unfold Client.DoRequest
    by_cases h : cfg.rateLimit.isSome <;> simp [h]
  rw [hmax] at hloop
  rw [hgate]
  unfold Client.doRequestAfterGate
  simp only [hmax, hloop]
  constructor
  · push_cast
    omega
  · trivial

/-- A passing rate-limit validation block means any configured rate-limit
policy has positive rate and burst. -/
theorem validateRateLimit_none_implies (c : Config)
    (h : c.validateRateLimit = none) :
    ∀ rl, c.rateLimit = some rl → 0 < rl.requestsPerSecond ∧ 0 < rl.burstSize := by
  intro rl hrl
  unfold Config.validateRateLimit at h
  simp only [hrl] at h
  split_ifs at h with h1 h2
  exact ⟨lt_of_not_le h1, lt_of_not_le h2⟩

/-- A passing validation means every validated field is in range. -/
theorem validate_none_implies (c : Config) (h : c.Validate = none) :
    ¬ c.baseURL = "" ∧
    ¬ (c.accessToken = "" ∧ (c.clientID = "" ∨ c.clientSecret = "")) ∧
    0 < c.timeout ∧
    (∀ rc, c.retryConfig = some rc →
      0 ≤ rc.maxRetries ∧ 0 < rc.initialDelay ∧ 0 < rc.maxDelay ∧
      0 < rc.multiplier) ∧
    (∀ rl, c.rateLimit = some rl →
      0 < rl.requestsPerSecond ∧ 0 < rl.burstSize) := by
  unfold Config.Validate at h
  split_ifs at h with h1 h2 h3
  cases hrc : c.retryConfig with
  | none =>
    simp only [hrc] at h
    refine ⟨h1, h2, by omega, ?_, validateRateLimit_none_implies c h⟩
    intro rc hrc2
    cases hrc2
  | some rc =>
    simp only [hrc] at h
    split_ifs at h with h4 h5 h6 h7
    refine ⟨h1, h2, by omega, ?_, validateRateLimit_none_implies c h⟩
    intro rc2 hrc2
    cases hrc2
    exact ⟨by omega, by omega, by omega, lt_of_not_le h7⟩

/-- After the admission gate, a logical call with a non-empty request
body that performed at least two physical sends transmitted the body only
on the first of them. -/
theorem doRequestAfterGate_bodySent (cfg : Config) (t : Nat) (body : String)
    (send : Nat → SendOutcome)
    (h2 : 2 ≤ (Client.doRequestAfterGate cfg t none body send).physicalAttempts) :
    ∃ rest, (Client.doRequestAfterGate cfg t none body send).sentBodies =
        body :: rest ∧ rest ≠ [] ∧ ∀ x ∈ rest, x = "" := by
  have hatt : (Client.doRequestAfterGate cfg t none body send).physicalAttempts =
      (doRequestLoop cfg send (Client.maxRetriesOf cfg) 0 body none).attemptsMade := rfl
  have hsb : (Client.doRequestAfterGate cfg t none body send).sentBodies =
      (doRequestLoop cfg send (Client.maxRetriesOf cfg) 0 body none).sentBodies := rfl
  rw [hatt] at h2
  rw [hsb]
  by_cases hle : ((0 : Nat) : Int) ≤ Client.maxRetriesOf cfg
  · obtain ⟨rest, hrest, hblank⟩ :=
      doRequestLoop_headBody cfg send (Client.maxRetriesOf cfg) 0 body none hle
    refine ⟨rest, hrest, ?_, hblank⟩
    intro hnil
    rw [hnil] at hrest
    have hlen := doRequestLoop_length cfg send (Client.maxRetriesOf cfg) 0 body none
    rw [hlen, hrest] at h2
    simp at h2
  · exfalso
    have hz : doRequestLoop cfg send (Client.maxRetriesOf cfg) 0 body none =
        { result := .exhausted (Client.maxRetriesOf cfg + 1) none
          attemptsMade := 0
          bodiesClosed := 0
          sentBodies := [] } := by
      rw [doRequestLoop, dif_neg hle]
    rw [hz] at h2
    simp at h2

/-! ## Claim theorems -/

/-- Claim C1 (counterexample): with a rate-limit policy configured and
MaxRetries = 1, a logical call whose transport fails twice performs 2
physical attempts but consumes only 1 rate-limiter token, because
DoRequest acquires admission once before the retry loop; the token count
does not equal the attempt count. -/
theorem tokenPerAttempt_counterexample :
    (Client.DoRequest (sampleConfig 1) .admitted none "" sendAlwaysTransportErr).physicalAttempts = 2 ∧
    (Client.DoRequest (sampleConfig 1) .admitted none "" sendAlwaysTransportErr).tokensConsumed = 1 ∧
    ¬ (Client.DoRequest (sampleConfig 1) .admitted none "" sendAlwaysTransportErr).tokensConsumed =
      (Client.DoRequest (sampleConfig 1) .admitted none "" sendAlwaysTransportErr).physicalAttempts := by
  refine ⟨?_, ?_, ?_⟩ <;>
    simp [Client.DoRequest, Client.doRequestAfterGate, Client.maxRetriesOf,
      sampleConfig, sampleRetryConfig, doRequestLoop, sendAlwaysTransportErr]

/-- Claim C1 (amended): exactly one rate-limiter token is consumed per
logical call — acquired by the single Wait before the retry loop when a
rate-limit policy is configured and admission succeeds, and zero tokens
otherwise; retries never re-acquire admission, so the count is
independent of the transport outcomes and of the number of physical
attempts. -/
theorem oneTokenPerLogicalCall (cfg : Config) (acquire : AcquireOutcome)
    (newReqErr : Option GoError) (body : String) (send : Nat → SendOutcome) :
    (Client.DoRequest cfg acquire newReqErr body send).tokensConsumed =
      (if cfg.rateLimit.isSome then
        match acquire with
        | .admitted => 1
        | .canceled _ => 0
      else 0) := by
  unfold Client.DoRequest Client.doRequestAfterGate
  by_cases h : cfg.rateLimit.isSome <;> cases acquire <;> cases newReqErr <;> simp [h]

/-- Claim C2: with a configured retry policy of MaxRetries = N ≥ 0 and a
transport failing on every attempt, DoRequest performs exactly N+1
physical sends and returns the exhaustion error stating N+1 attempts and
wrapping the last recorded transport failure. -/
theorem transportExhaustion (cfg : Config) (rc : RetryConfig) (e : Nat → GoError)
    (body : String) (send : Nat → SendOutcome)
    (hrc : cfg.retryConfig = some rc) (hN : 0 ≤ rc.maxRetries)
    (hsend : ∀ k, send k = .err (e k)) :
    ((Client.DoRequest cfg .admitted none body send).physicalAttempts : Int) =
        rc.maxRetries + 1 ∧
    (Client.DoRequest cfg .admitted none body send).result =
        .exhausted (rc.maxRetries + 1) (some (e rc.maxRetries.toNat)) :=
  doRequest_admitted_allFail cfg rc e body send hrc hN hsend

/-- Claim C2 witness at MaxRetries = 2. -/
theorem transportExhaustion_witness :
    ((Client.DoRequest (sampleConfig 2) .admitted none "b" sendAlwaysTransportErr).physicalAttempts : Int) = 3 ∧
    (Client.DoRequest (sampleConfig 2) .admitted none "b" sendAlwaysTransportErr).result =
      .exhausted 3 (some (.transport 2)) := by
  have h := transportExhaustion (sampleConfig 2) (sampleRetryConfig 2)
    (fun k => .transport k) "b" sendAlwaysTransportErr rfl (by decide) (fun k => rfl)
  simpa using h

/-- Claim C3 (counterexample): with MaxRetries = 1 and the caller context
cancelled during the first physical send, DoRequest performs a second
physical attempt and returns the retry-exhaustion error stating the
attempt count and wrapping the cancellation — not a cancellation-only
error with no further attempts. -/
theorem cancelDuringSend_counterexample :
    (Client.DoRequest (sampleConfig 1) .admitted none "b" sendAlwaysCanceled).result =
        .exhausted 2 (some .ctxCanceled) ∧
    (Client.DoRequest (sampleConfig 1) .admitted none "b" sendAlwaysCanceled).physicalAttempts = 2 := by
  constructor <;>
    simp [Client.DoRequest, Client.doRequestAfterGate, Client.maxRetriesOf,
      sampleConfig, sampleRetryConfig, doRequestLoop, sendAlwaysCanceled]

/-- Claim C3 (amended): cancellation during the rate-limiter wait aborts
the call with the rate-limit/cancellation error and performs no physical
attempt; but cancellation during a physical send is treated like any
transport failure — the remaining attempts still run (each failing with
the cancellation error) and the call returns the retry-exhaustion error
stating the attempt count and wrapping the cancellation. -/
theorem cancellationHandling (cfg : Config) (e : GoError) (rc : RetryConfig)
    (newReqErr : Option GoError) (body : String) (send : Nat → SendOutcome)
    (hrl : cfg.rateLimit.isSome = true) :
    (Client.DoRequest cfg (.canceled e) newReqErr body send =
      { result := .rateLimitError e
        tokensConsumed := 0
        physicalAttempts := 0
        bodiesClosedInLoop := 0
        sentBodies := [] }) ∧
    (cfg.retryConfig = some rc → 0 ≤ rc.maxRetries →
      (∀ k, send k = .err .ctxCanceled) →
      (Client.DoRequest cfg .admitted newReqErr body send).result =
          (match newReqErr with
           | some e2 => .newRequestError e2
           | none => .exhausted (rc.maxRetries + 1) (some .ctxCanceled)) ∧
      (newReqErr = none →
        ((Client.DoRequest cfg .admitted newReqErr body send).physicalAttempts : Int) =
          rc.maxRetries + 1)) := by
  constructor
  · unfold Client.DoRequest
    simp [hrl]
  · intro hrc hN hsend
    have h := doRequest_admitted_allFail cfg rc (fun _ => .ctxCanceled) body send hrc hN hsend
    cases newReqErr with
    | some e2 =>
      constructor
      · unfold Client.DoRequest Client.doRequestAfterGate
        simp [hrl]
      · intro hcontra
        exact absurd hcontra (by simp)
    | none => exact ⟨h.2, fun _ => h.1⟩

/-- Claim C3 witness: cancellation during the wait yields the rate-limit
error and zero attempts; a context cancelled during the first send still
produces a second attempt and the exhaustion error. -/
theorem cancellationHandling_witness :
    Client.DoRequest (sampleConfig 1) (.canceled .ctxCanceled) none "b" sendAlwaysCanceled =
      { result := .rateLimitError .ctxCanceled
        tokensConsumed := 0
        physicalAttempts := 0
        bodiesClosedInLoop := 0
        sentBodies := [] } ∧
    (Client.DoRequest (sampleConfig 1) .admitted none "b" sendAlwaysCanceled).result =
      .exhausted 2 (some .ctxCanceled) ∧
    ((Client.DoRequest (sampleConfig 1) .admitted none "b" sendAlwaysCanceled).physicalAttempts : Int) = 2 := by
  have h := cancellationHandling (sampleConfig 1) .ctxCanceled (sampleRetryConfig 1)
    none "b" sendAlwaysCanceled (by decide)
  have h2 := h.2 rfl (by decide) (fun k => rfl)
  refine ⟨h.1, ?_, ?_⟩
  · simpa [sampleRetryConfig] using h2.1
  · simpa [sampleRetryConfig] using h2.2 rfl

/-- Claim C4: a received response with a status in the retryable set —
the set defaulting to 429, 500, 502, 503, 504 when no retryable status
codes are configured — is retried when attempts remain, closing the
response body and recording the synthetic status error; any other status
is returned as-is with no retry, regardless of remaining attempts. -/
theorem retryableStatusPolicy (cfg : Config) (send : Nat → SendOutcome)
    (maxRetries : Int) (attempt : Nat) (r : String) (lastErr : Option GoError)
    (s : Int) (hle : (attempt : Int) ≤ maxRetries) (hsend : send attempt = .resp s) :
    ((cfg.retryConfig = none ∨
        (∃ rc, cfg.retryConfig = some rc ∧ rc.retryableStatusCodes = [])) →
      (Client.shouldRetry cfg s = true ↔
        (s = 429 ∨ s = 500 ∨ s = 502 ∨ s = 503 ∨ s = 504))) ∧
    (Client.shouldRetry cfg s = true → (attempt : Int) < maxRetries →
      doRequestLoop cfg send maxRetries attempt r lastErr =
        { result := (doRequestLoop cfg send maxRetries (attempt + 1) ""
              (some (.httpStatus s))).result
          attemptsMade := (doRequestLoop cfg send maxRetries (attempt + 1) ""
              (some (.httpStatus s))).attemptsMade + 1
          bodiesClosed := (doRequestLoop cfg send maxRetries (attempt + 1) ""
              (some (.httpStatus s))).bodiesClosed + 1
          sentBodies := r :: (doRequestLoop cfg send maxRetries (attempt + 1) ""
              (some (.httpStatus s))).sentBodies }) ∧
    (Client.shouldRetry cfg s = false ∨ ¬ (attempt : Int) < maxRetries →
      doRequestLoop cfg send maxRetries attempt r lastErr =
        { result := .response s attempt
          attemptsMade := 1
          bodiesClosed := 0
          sentBodies := [r] }) := by
  refine ⟨?_, doRequestLoop_respStep cfg send maxRetries attempt r lastErr s hle hsend⟩
  intro hdef
  rcases hdef with h | ⟨rc, hrc, hcodes⟩
  · simp [Client.shouldRetry, h, List.contains]
  · simp [Client.shouldRetry, hrc, hcodes, List.contains]

/-- Claim C4 witness: with the default retryable set, a 503 at attempt 0
of MaxRetries = 1 retries with a synthetic error and closed body, while a
200 is returned as-is after one attempt. -/
theorem retryableStatusPolicy_witness :
    (Client.shouldRetry (sampleConfig 1) 503 = true ↔
      ((503 : Int) = 429 ∨ (503 : Int) = 500 ∨ (503 : Int) = 502 ∨
        (503 : Int) = 503 ∨ (503 : Int) = 504)) ∧
    doRequestLoop (sampleConfig 1) (sendResp 503) 1 0 "b" none =
      { result := (doRequestLoop (sampleConfig 1) (sendResp 503) 1 1 ""
            (some (.httpStatus 503))).result
        attemptsMade := (doRequestLoop (sampleConfig 1) (sendResp 503) 1 1 ""
            (some (.httpStatus 503))).attemptsMade + 1
        bodiesClosed := (doRequestLoop (sampleConfig 1) (sendResp 503) 1 1 ""
            (some (.httpStatus 503))).bodiesClosed + 1
        sentBodies := "b" :: (doRequestLoop (sampleConfig 1) (sendResp 503) 1 1 ""
            (some (.httpStatus 503))).sentBodies } ∧
    doRequestLoop (sampleConfig 1) (sendResp 200) 1 0 "b" none =
      { result := .response 200 0
        attemptsMade := 1
        bodiesClosed := 0
        sentBodies := ["b"] } := by
  have h503 := retryableStatusPolicy (sampleConfig 1) (sendResp 503) 1 0 "b" none 503
    (by decide) rfl
  have h200 := retryableStatusPolicy (sampleConfig 1) (sendResp 200) 1 0 "b" none 200
    (by decide) rfl
  exact ⟨h503.1 (Or.inr ⟨sampleRetryConfig 1, rfl, rfl⟩),
    h503.2.1 (by decide) (by decide),
    h200.2.2 (Or.inl (by decide))⟩

/-- Claim C5: for a read body and a failure status (≥ 400), ParseResponse
returns the decoded structured API error exactly when the body decodes as
an APIError carrying a non-empty code, and otherwise returns the generic
error carrying the raw status and body text; for a success status it
decodes into the caller target, and a decode failure yields the parse
error, which is distinct from any API error. -/
theorem parseClassification (status : Int) (b : HTTPBody)
    (hread : b.readFails = false) :
    (400 ≤ status → ∀ a : APIError, b.apiErrDecode = some a → a.code ≠ "" →
        (Client.ParseResponse status b).result = .apiError a) ∧
    (400 ≤ status → ∀ a : APIError, b.apiErrDecode = some a → a.code = "" →
        (Client.ParseResponse status b).result = .genericHTTPError status b.content) ∧
    (400 ≤ status → b.apiErrDecode = none →
        (Client.ParseResponse status b).result = .genericHTTPError status b.content) ∧
    (400 ≤ status → ∀ a : APIError,
        ((Client.ParseResponse status b).result = .apiError a ↔
          b.apiErrDecode = some a ∧ a.code ≠ "")) ∧
    (status < 400 →
        (Client.ParseResponse status b).result =
          (if b.targetDecodeOk then .ok else .parseError)) ∧
    (∀ a : APIError, ParseResult.parseError ≠ ParseResult.apiError a) := by
  refine ⟨?_, ?_, ?_, ?_, ?_, ?_⟩
  · intro h4 a hd hc
    unfold Client.ParseResponse
    simp [hread, if_pos h4, hd, hc]
  · intro h4 a hd hc
    unfold Client.ParseResponse
    simp [hread, if_pos h4, hd, hc]
  · intro h4 hd
    unfold Client.ParseResponse
    simp [hread, if_pos h4, hd]
  · intro h4 a
    cases hd : b.apiErrDecode with
    | none =>
      unfold Client.ParseResponse
      simp [hread, if_pos h4, hd]
    | some a2 =>
      unfold Client.ParseResponse
      simp only [hread, Bool.false_eq_true, if_false, if_pos h4, hd]
      by_cases hc : a2.code = ""
      · simp only [hc, ne_eq, not_true_eq_false, if_false]
        constructor
        · intro heq
          cases heq
        · rintro ⟨heq, hne⟩
          cases heq
          exact absurd hc hne
      · simp only [ne_eq, hc, not_false_eq_true, if_true]
        constructor
        · intro heq
          cases heq
          exact ⟨rfl, hc⟩
        · rintro ⟨heq, _⟩
          cases heq
          rfl
  · intro hlt
    unfold Client.ParseResponse
    simp only [hread, Bool.false_eq_true, if_false, if_neg (by omega : ¬ 400 ≤ status)]
    split_ifs <;> rfl
  · intro a heq
    cases heq

/-- Claim C5 witness at status 500 with a decodable rate-limit error
body, at status 404 with an undecodable body, and at status 200 with a
target decode failure. -/
theorem parseClassification_witness :
    (Client.ParseResponse 500
        { readFails := false, content := "body", apiErrDecode := some apiErrRateLimit,
          targetDecodeOk := true }).result = .apiError apiErrRateLimit ∧
    (Client.ParseResponse 404
        { readFails := false, content := "nf", apiErrDecode := none,
          targetDecodeOk := true }).result = .genericHTTPError 404 "nf" ∧
    (Client.ParseResponse 200
        { readFails := false, content := "body", apiErrDecode := none,
          targetDecodeOk := false }).result = .parseError := by
  have h1 := parseClassification 500
    { readFails := false, content := "body", apiErrDecode := some apiErrRateLimit,
      targetDecodeOk := true } rfl
  have h2 := parseClassification 404
    { readFails := false, content := "nf", apiErrDecode := none,
      targetDecodeOk := true } rfl
  have h3 := parseClassification 200
    { readFails := false, content := "body", apiErrDecode := none,
      targetDecodeOk := false } rfl
  refine ⟨h1.1 (by norm_num) apiErrRateLimit rfl (by decide), ?_, ?_⟩
  · exact h2.2.2.1 (by norm_num) rfl
  · rw [h3.2.2.2.2.1 (by norm_num)]
    rfl

/-- Claim C6: on every exit path of ParseResponse — body-read failure,
failure status with a decodable or undecodable API error body, success
status with decode success or decode failure — the response body is
closed exactly once before returning. -/
theorem bodyClosedExactlyOnce (status : Int) (b : HTTPBody) :
    (Client.ParseResponse status b).bodyCloses = 1 := by
  by_cases hr : b.readFails
  · simp [Client.ParseResponse, hr]
  · by_cases h4 : 400 ≤ status
    · cases hd : b.apiErrDecode with
      | none => simp [Client.ParseResponse, hr, h4, hd]
      | some a =>
        by_cases hc : a.code = "" <;>
          simp [Client.ParseResponse, hr, h4, hd, hc]
    · by_cases ht : b.targetDecodeOk <;>
        simp [Client.ParseResponse, hr, h4, ht]

/-- Claim C7 (code bug): for the valid configuration with the default
30-second timeout, NewClient installs an HTTP client timeout of
int64Wrap(30s in nanoseconds times 10^9) = -6893488147419103232 ns — the
Go expression time.Duration(config.Timeout) * time.Second applies the
seconds conversion to an already nanosecond-valued duration and even
wraps around int64 — which differs from the configured duration T, while
SetTimeout installs exactly T as the code elsewhere intends. -/
theorem timeoutDoubleConversion :
    NewClient (some cfgTimeout) false =
      .ok { config := cfgTimeout
            httpClientTimeout := -6893488147419103232
            rateLimiter := none } ∧
    ¬ (-6893488147419103232 : Int) = cfgTimeout.timeout ∧
    (ClientState.SetTimeout
        { config := cfgTimeout
          httpClientTimeout := -6893488147419103232
          rateLimiter := none } cfgTimeout.timeout).httpClientTimeout =
      cfgTimeout.timeout := by
  refine ⟨by rfl, by decide, rfl⟩

/-- Claim C8: a configuration with a missing base URL, no credential, a
non-positive timeout, an out-of-range retry policy, or an out-of-range
rate-limit policy is rejected by NewClient with a configuration error and
no client is produced; a nil configuration is replaced by DefaultConfig,
which carries no credential and is likewise rejected. -/
theorem configValidationRejects (cfg : Config) (p : Bool)
    (hbad : cfg.baseURL = "" ∨
      (cfg.accessToken = "" ∧ (cfg.clientID = "" ∨ cfg.clientSecret = "")) ∨
      cfg.timeout ≤ 0 ∨
      (∃ rc, cfg.retryConfig = some rc ∧
        (rc.maxRetries < 0 ∨ rc.initialDelay ≤ 0 ∨ rc.maxDelay ≤ 0 ∨
          rc.multiplier ≤ 0)) ∨
      (∃ rl, cfg.rateLimit = some rl ∧
        (rl.requestsPerSecond ≤ 0 ∨ rl.burstSize ≤ 0))) :
    (∃ e, NewClient (some cfg) p = .error (.invalidConfig e)) ∧
    (∀ q : Bool, ∃ e, NewClient none q = .error (.invalidConfig e)) ∧
    DefaultConfig.accessToken = "" ∧ DefaultConfig.clientID = "" ∧
    DefaultConfig.clientSecret = "" := by
  have hv : ¬ cfg.Validate = none := by
    intro hnone
    have hg := validate_none_implies cfg hnone
    rcases hbad with h | h | h | ⟨rc, hrc, hb⟩ | ⟨rl, hrl, hb⟩
    · exact hg.1 h
    · exact hg.2.1 h
    · have := hg.2.2.1
      omega
    · have hr := hg.2.2.2.1 rc hrc
      rcases hb with hb | hb | hb | hb
      · omega
      · omega
      · omega
      · exact absurd hb (not_le.mpr hr.2.2.2)
    · have hr := hg.2.2.2.2 rl hrl
      rcases hb with hb | hb
      · exact absurd hb (not_le.mpr hr.1)
      · omega
  obtain ⟨e, he⟩ : ∃ e, cfg.Validate = some e := by
    cases hvv : cfg.Validate with
    | none => exact absurd hvv hv
    | some e => exact ⟨e, rfl⟩
  refine ⟨⟨e, ?_⟩, ?_, rfl, rfl, rfl⟩
  · unfold NewClient
    simp [he]
  · intro q
    exact ⟨⟨"Authentication", "either access token or client credentials are required"⟩, rfl⟩

/-- Claim C8 witness: a configuration with base URL set but no credential
is rejected, as is the nil configuration. -/
theorem configValidationRejects_witness :
    (∃ e, NewClient (some { cfgTimeout with accessToken := "" }) false =
        .error (.invalidConfig e)) ∧
    (∃ e, NewClient none true = .error (.invalidConfig e)) := by
  have h := configValidationRejects { cfgTimeout with accessToken := "" } false
    (Or.inr (Or.inl ⟨rfl, Or.inl rfl⟩))
  exact ⟨h.1, h.2.1 true⟩

/-- Claim C9: an API error whose code is RATE_LIMIT_EXCEEDED classifies
as retryable and as a rate-limit failure regardless of its HTTP status,
and one whose code is INVALID_PARAMETER classifies as a validation
failure. -/
theorem errorCodeClassification (e : APIError) :
    (e.code = "RATE_LIMIT_EXCEEDED" →
      e.IsRetryable = true ∧ e.IsRateLimitError = true) ∧
    (e.code = "INVALID_PARAMETER" → e.IsValidationError = true) := by
  constructor
  · intro hc
    constructor
    · unfold APIError.IsRetryable
      split_ifs with h1 h2
      · rfl
      · rfl
      · exact absurd (by simp [hc]) h2
    · unfold APIError.IsRateLimitError
      simp [hc]
  · intro hc
    unfold APIError.IsValidationError
    split_ifs with h1 h2
    · rfl
    · rfl
    · exact absurd (by simp [hc]) h2

/-- Claim C9 witness: the rate-limit code on a 200 status is retryable
and a rate-limit failure; the invalid-parameter code is a validation
failure. -/
theorem errorCodeClassification_witness :
    (apiErrRateLimit.IsRetryable = true ∧ apiErrRateLimit.IsRateLimitError = true) ∧
    apiErrInvalidParam.IsValidationError = true :=
  ⟨(errorCodeClassification apiErrRateLimit).1 rfl,
   (errorCodeClassification apiErrInvalidParam).2 rfl⟩

/-- Claim C10: a logical call with a non-empty request body that performs
two or more physical attempts transmits the body on the first attempt
only; every later attempt re-sends the same request object whose body
reader was already consumed, so it carries an empty body, never the
original one. -/
theorem retriedAttemptsLoseBody (cfg : Config) (acquire : AcquireOutcome)
    (body : String) (send : Nat → SendOutcome) (hbody : ¬ body = "")
    (h2 : 2 ≤ (Client.DoRequest cfg acquire none body send).physicalAttempts) :
    ∃ rest, (Client.DoRequest cfg acquire none body send).sentBodies =
        body :: rest ∧ rest ≠ [] ∧ (∀ x ∈ rest, x = "") ∧
        (∀ x ∈ rest, ¬ x = body) := by
  have main : ∀ t : Nat,
      2 ≤ (Client.doRequestAfterGate cfg t none body send).physicalAttempts →
      ∃ rest, (Client.doRequestAfterGate cfg t none body send).sentBodies =
        body :: rest ∧ rest ≠ [] ∧ (∀ x ∈ rest, x = "") ∧
        (∀ x ∈ rest, ¬ x = body) := by
    intro t ht
    obtain ⟨rest, h1, hne, hblank⟩ := doRequestAfterGate_bodySent cfg t body send ht
    exact ⟨rest, h1, hne, hblank,
      fun x hx hxb => hbody ((hxb.symm).trans (hblank x hx))⟩
  by_cases hrl : cfg.rateLimit.isSome
  · cases acquire with
    | canceled e =>
      exfalso
      have hz : (Client.DoRequest cfg (.canceled e) none body send).physicalAttempts = 0 := by
        unfold Client.DoRequest
        simp [hrl]
      rw [hz] at h2
      omega
    | admitted =>
      have hred : Client.DoRequest cfg .admitted none body send =
          Client.doRequestAfterGate cfg 1 none body send := by
        unfold Client.DoRequest
        simp [hrl]
      rw [hred] at h2 ⊢
      exact main 1 h2
  · have hred : Client.DoRequest cfg acquire none body send =
        Client.doRequestAfterGate cfg 0 none body send := by
      unfold Client.DoRequest
      simp [hrl]
    rw [hred] at h2 ⊢
    exact main 0 h2

/-- Claim C10 witness: MaxRetries = 1 with a transport failing twice —
the first send carries the body, the retry an empty one. -/
theorem retriedAttemptsLoseBody_witness :
    ∃ rest, (Client.DoRequest (sampleConfig 1) .admitted none "b"
        sendAlwaysTransportErr).sentBodies = "b" :: rest ∧ rest ≠ [] ∧
        (∀ x ∈ rest, x = "") ∧ (∀ x ∈ rest, ¬ x = "b") := by
  apply retriedAttemptsLoseBody
  · decide
  · simp [Client.DoRequest, Client.doRequestAfterGate, Client.maxRetriesOf,
      sampleConfig, sampleRetryConfig, doRequestLoop, sendAlwaysTransportErr]

end TikTokSDK
